import Mathlib

/-!
# Input streams of the sensor application (`istream.cpp`)

A shallow embedding of `IStream` and its four variants (`AudioStream`,
`SerialStream`, `ASCIISerialStream`, `FirmataStream`).

* A `double` sample is a value of an arbitrary type `α`; no arithmetic is done on
  samples by the stream code itself.
* A `GRT::MatrixDouble` is a list of rows.
* Each stream object is a record of its C++ members, plus ghost fields that count
  the calls made into the device layer (threads spawned, ports opened, commands
  sent) and the lines written with `ofLog`.
* A `unique_ptr<std::thread>` is `Option Bool`: `none` is `nullptr`, `some j` is a
  thread object whose `joinable()` is `j`.
-/

namespace Sensors

/-- A `GRT::MatrixDouble`: rows of samples. -/
abbrev MatrixDouble (α : Type) := List (List α)

/-! ## IStream -/

/-- The members of `IStream`. A function pointer is `none` when it is `nullptr`;
`data_ready_callback_` records only whether a callback is registered. -/
structure IStream (α : Type) where
  has_started_ : Bool
  data_ready_callback_ : Bool
  normalizer_ : Option (α → α)
  vectorNormalizer_ : Option (List α → List α)
  istream_labels_ : List String

namespace IStream

variable {α : Type}

/-- `IStream::IStream()`: `has_started_(false), data_ready_callback_(nullptr)`; the two
normalizer pointers start as `nullptr`. -/
def new : IStream α :=
  { has_started_ := false
    data_ready_callback_ := false
    normalizer_ := none
    vectorNormalizer_ := none
    istream_labels_ := [] }

/-- `IStream::normalize` (istream.cpp:17-27). -/
def normalize (s : IStream α) (input : List α) : List α :=
  match s.vectorNormalizer_ with
  | some g => g input
  | none =>
    match s.normalizer_ with
    | some f => input.map f
    | none => input

/-- `IStream::setLabelsForAllDimensions(const vector<string>)` (istream.cpp:29-31). -/
def setLabelsForAllDimensions (labels : List String) (s : IStream α) : IStream α :=
  { s with istream_labels_ := labels }

/-- `IStream::setLabelsForAllDimensions(std::initializer_list<string>)`
(istream.cpp:33-37). `numOutputDimensions` is the value of `getNumOutputDimensions()`,
which is declared in `istream.h`. -/
def setLabelsForAllDimensionsInit (numOutputDimensions : Nat) (list : List String)
    (s : IStream α) : IStream α :=
  if list.length ≠ numOutputDimensions then s
  else { s with istream_labels_ := list }

/-- `IStream::getLabels` (istream.cpp:39-41). -/
def getLabels (s : IStream α) : List String := s.istream_labels_

/-- Modelled from the spec: `useNormalizer` is declared in `istream.h`, which is not
among the sources. "Exactly one of the two normalizer forms may be active; last one
registered wins." -/
def useNormalizer (f : α → α) (s : IStream α) : IStream α :=
  { s with normalizer_ := some f, vectorNormalizer_ := none }

/-- Modelled from the spec: `useVectorNormalizer` is declared in `istream.h`, which is
not among the sources. "Exactly one of the two normalizer forms may be active; last one
registered wins." -/
def useVectorNormalizer (g : List α → List α) (s : IStream α) : IStream α :=
  { s with normalizer_ := none, vectorNormalizer_ := some g }

/-- Modelled from the spec: `onDataReadyEvent` is declared in `istream.h`, which is not
among the sources. "a single registered sink of type (Frame) → void". -/
def onDataReadyEvent (s : IStream α) : IStream α :=
  { s with data_ready_callback_ := true }

end IStream

/-- The line both serial streams and the Firmata stream log when `port_ == -1`. -/
def portNotSetMsg : String := "USB Port has not been properly set"

/-- The line `FirmataStream::start` logs when no pin is registered. -/
def pinNotSetMsg : String := "Pin has not been properly set"

/-! ## AudioStream -/

/-- The members of `AudioStream`. `soundRunning` is the state of the `ofSoundStream`,
`soundStarts` counts the calls of `sound_stream_->start()`. -/
structure AudioStream (α : Type) extends IStream α where
  downsample_rate_ : Nat
  soundRunning : Bool
  soundStarts : Nat

namespace AudioStream

variable {α : Type}

/-- `AudioStream::AudioStream(uint32_t downsample_rate)` (istream.cpp:43-51): the sound
stream is set up and stopped at once. -/
def new (downsample_rate : Nat) : AudioStream α :=
  { IStream.new with
    downsample_rate_ := downsample_rate % 2 ^ 32
    soundRunning := false
    soundStarts := 0 }

/-- `AudioStream::start` (istream.cpp:53-58). -/
def start (s : AudioStream α) : AudioStream α :=
  if !s.has_started_ then
    { s with soundRunning := true, soundStarts := s.soundStarts + 1, has_started_ := true }
  else s

/-- `AudioStream::stop` (istream.cpp:60-65). -/
def stop (s : AudioStream α) : AudioStream α :=
  if s.has_started_ then
    { s with soundRunning := false, has_started_ := false }
  else s

/-- `AudioStream::getNumInputDimensions` (istream.cpp:67-69). -/
def getNumInputDimensions (_s : AudioStream α) : Nat := 1

end AudioStream

/-! ## SerialStream -/

/-- The members of `SerialStream`. `port_` is the integer that `port_ == -1` compares
(an unset port is -1). `serialSetups` lists the `serial_->setup(port, baud)` calls
made, `threadsSpawned` counts the `std::thread` objects created, `log` holds the error
lines written. -/
structure SerialStream (α : Type) extends IStream α where
  port_ : Int
  baud_ : Int
  reading_thread_ : Option Bool
  serialSetups : List (Int × Int)
  threadsSpawned : Nat
  log : List String

namespace SerialStream

variable {α : Type}

/-- `SerialStream::SerialStream(uint32_t port, uint32_t baud)` (istream.cpp:85-89). -/
def new (port baud : Int) : SerialStream α :=
  { IStream.new with
    port_ := port
    baud_ := baud
    reading_thread_ := none
    serialSetups := []
    threadsSpawned := 0
    log := [] }

/-- `SerialStream::start` (istream.cpp:91-101). The `port_ == -1` branch only logs;
control then reaches the `!has_started_` block, where `reset` installs the new thread
as the handle. -/
def start (s : SerialStream α) : SerialStream α :=
  let s1 : SerialStream α :=
    if s.port_ = -1 then { s with log := s.log ++ [portNotSetMsg] } else s
  if !s1.has_started_ then
    { s1 with
      serialSetups := s1.serialSetups ++ [(s1.port_, s1.baud_)]
      reading_thread_ := some true
      threadsSpawned := s1.threadsSpawned + 1
      has_started_ := true }
  else s1

/-- `SerialStream::stop` (istream.cpp:103-108): the flag is cleared, then a joinable
thread is joined (after `join()` it is no longer joinable). -/
def stop (s : SerialStream α) : SerialStream α :=
  let s1 : SerialStream α := { s with has_started_ := false }
  match s1.reading_thread_ with
  | some true => { s1 with reading_thread_ := some false }
  | _ => s1

/-- `SerialStream::getNumInputDimensions` (istream.cpp:110-112). -/
def getNumInputDimensions (_s : SerialStream α) : Nat := 1

end SerialStream

/-! ## ASCIISerialStream -/

/-- The members of `ASCIISerialStream`; ghost fields as for `SerialStream`. -/
structure ASCIISerialStream (α : Type) extends IStream α where
  port_ : Int
  baud_ : Int
  numDimensions_ : Nat
  reading_thread_ : Option Bool
  serialSetups : List (Int × Int)
  threadsSpawned : Nat
  log : List String

namespace ASCIISerialStream

variable {α : Type}

/-- `ASCIISerialStream::ASCIISerialStream(uint32_t port, uint32_t baud, uint32_t dim)`
(istream.cpp:160-164). -/
def new (port baud : Int) (dim : Nat) : ASCIISerialStream α :=
  { IStream.new with
    port_ := port
    baud_ := baud
    numDimensions_ := dim
    reading_thread_ := none
    serialSetups := []
    threadsSpawned := 0
    log := [] }

/-- `ASCIISerialStream::start` (istream.cpp:166-176). The `port_ == -1` branch only
logs; control then reaches the `!has_started_` block. -/
def start (s : ASCIISerialStream α) : ASCIISerialStream α :=
  let s1 : ASCIISerialStream α :=
    if s.port_ = -1 then { s with log := s.log ++ [portNotSetMsg] } else s
  if !s1.has_started_ then
    { s1 with
      serialSetups := s1.serialSetups ++ [(s1.port_, s1.baud_)]
      reading_thread_ := some true
      threadsSpawned := s1.threadsSpawned + 1
      has_started_ := true }
  else s1

/-- `ASCIISerialStream::stop` (istream.cpp:178-183). -/
def stop (s : ASCIISerialStream α) : ASCIISerialStream α :=
  let s1 : ASCIISerialStream α := { s with has_started_ := false }
  match s1.reading_thread_ with
  | some true => { s1 with reading_thread_ := some false }
  | _ => s1

/-- `ASCIISerialStream::getNumInputDimensions` (istream.cpp:185-187). -/
def getNumInputDimensions (s : ASCIISerialStream α) : Nat := s.numDimensions_

end ASCIISerialStream

/-! ## FirmataStream -/

/-- `ARD_ON`, the mode argument of `sendAnalogPinReporting` (from `ofArduino.h`). -/
def ARD_ON : Int := 1

/-- The members of `FirmataStream`. `connects` lists the ports whose device was handed
to `arduino_.connect`, `threadsSpawned` counts the `std::thread` objects created,
`reportingSent` lists the `sendAnalogPinReporting(pin, mode)` calls made, `log` holds
the lines written. -/
structure FirmataStream (α : Type) extends IStream α where
  port_ : Int
  pins_ : List Int
  configured_arduino_ : Bool
  update_thread_ : Option Bool
  connects : List Int
  threadsSpawned : Nat
  reportingSent : List (Int × Int)
  log : List String

namespace FirmataStream

variable {α : Type}

/-- `FirmataStream::FirmataStream(uint32_t port)` (istream.cpp:226-229). -/
def new (port : Int) : FirmataStream α :=
  { IStream.new with
    port_ := port
    pins_ := []
    configured_arduino_ := false
    update_thread_ := none
    connects := []
    threadsSpawned := 0
    reportingSent := []
    log := [] }

/-- `FirmataStream::useAnalogPin` (istream.cpp:231-233). -/
def useAnalogPin (i : Int) (s : FirmataStream α) : FirmataStream α :=
  { s with pins_ := s.pins_ ++ [i] }

/-- `FirmataStream::start` (istream.cpp:235-254): both configuration checks log and
return. -/
def start (s : FirmataStream α) : FirmataStream α :=
  if s.port_ = -1 then { s with log := s.log ++ [portNotSetMsg] }
  else if s.pins_.length = 0 then { s with log := s.log ++ [pinNotSetMsg] }
  else if !s.has_started_ then
    { s with
      configured_arduino_ := false
      connects := s.connects ++ [s.port_]
      update_thread_ := some true
      threadsSpawned := s.threadsSpawned + 1
      has_started_ := true }
  else s

/-- `FirmataStream::stop` (istream.cpp:256-261). -/
def stop (s : FirmataStream α) : FirmataStream α :=
  let s1 : FirmataStream α := { s with has_started_ := false }
  match s1.update_thread_ with
  | some true => { s1 with update_thread_ := some false }
  | _ => s1

/-- `FirmataStream::getNumInputDimensions` (istream.cpp:263-265). -/
def getNumInputDimensions (s : FirmataStream α) : Nat := s.pins_.length

end FirmataStream

/-! ## AudioStream::audioIn -/

/-- Conversion of an `int` to `uint32_t`. -/
def toUInt32 (n : Int) : Nat := (n % 2 ^ 32).toNat

/-- The values of a sequence of element reads, or `none` when one of them was outside
its array. -/
def allReads {β : Type} : List (Option β) → Option (List β)
  | [] => some []
  | none :: _ => none
  | some x :: rest => (allReads rest).map (x :: ·)

/-- `AudioStream::audioIn` (istream.cpp:71-83). `input` is the buffer behind the
`float*`; the result is the list of frames handed to the data-ready callback, or `none`
when the call divides by zero, overflows the `int` loop counter or reads outside
`input`. `nChannel` is overwritten with 1; the row count and the index are computed in
`uint32_t` because `downsample_rate_` is unsigned. -/
def AudioStream.audioIn {α : Type} (s : AudioStream α) (input : List α)
    (buffer_size : Int) (_nChannel : Int) : Option (List (MatrixDouble α)) :=
  let nChannel : Int := 1
  if s.downsample_rate_ = 0 then none
  else
    let rows : Nat := toUInt32 (Int.tdiv buffer_size nChannel) / s.downsample_rate_
    if 2 ^ 31 ≤ rows then none
    else
      let data : Option (MatrixDouble α) :=
        allReads ((List.range rows).map fun (i : Nat) =>
          allReads ((List.range nChannel.toNat).map fun (j : Nat) =>
            input[(toUInt32 ((i : Int) * nChannel) * s.downsample_rate_
              + toUInt32 (j : Int)) % 2 ^ 32]?))
      data.map fun m => if s.data_ready_callback_ then [m] else []

/-! ## SerialStream: the inter-read sleep -/

/-- An `int` result: the value when it is representable in 32 bits, `none` on signed
overflow. -/
def asInt32 (x : Int) : Option Int :=
  if -2 ^ 31 ≤ x ∧ x < 2 ^ 31 then some x else none

/-- `int sleep_time = kBufferSize_ * 1000 / (baud_ / 10);` (istream.cpp:118), in
milliseconds. `kBufferSize_` is a constant of `istream.h` and is a parameter here. The
result is `none` when the product overflows or `baud_ / 10` is zero. -/
def SerialStream.sleepTime {α : Type} (kBufferSize_ : Int) (s : SerialStream α) :
    Option Int :=
  match asInt32 (kBufferSize_ * 1000) with
  | none => none
  | some prod =>
    if Int.tdiv s.baud_ 10 = 0 then none
    else asInt32 (Int.tdiv prod (Int.tdiv s.baud_ 10))

/-! ## ASCIISerialStream::readSerial -/

/-- One formatted extraction `iss >> d` applied to the unread characters of the string
stream: the value and the characters left unread, or `none` when the extraction fails.
The operator belongs to the C++ standard library and is a parameter of the model. -/
abbrev Extractor (α : Type) := List Char → Option (α × List Char)

/-- `while (iss >> d) data.push_back(d);` (istream.cpp:212): values are extracted until
an extraction fails. `fuel` bounds the number of loop tests; `none` when it runs out. -/
def extractAll {α : Type} (extract : Extractor α) : Nat → List Char → Option (List α)
  | 0, _ => none
  | fuel + 1, unread =>
    match extract unread with
    | none => some []
    | some (d, rest) => (extractAll extract fuel rest).map (d :: ·)

namespace ASCIISerialStream

variable {α : Type}

/-- The `do ... while (s[s.length() - 1] != '\n')` loop of `readSerial`
(istream.cpp:198-203) over the bytes the port delivers: the line up to and including the
first newline, and the bytes still unread; `none` when no newline arrives. -/
def readLine : List Char → Option (List Char × List Char)
  | [] => none
  | c :: cs =>
    if c = '\n' then some ([c], cs)
    else (readLine cs).map fun (p : List Char × List Char) => (c :: p.1, p.2)

/-- One pass through the body of the `while (has_started_)` loop of
`ASCIISerialStream::readSerial` (istream.cpp:196-222): the frames handed to the callback
and the bytes still unread. -/
def readSerialIteration (extract : Extractor α) (s : ASCIISerialStream α)
    (incoming : List Char) : Option (List (MatrixDouble α) × List Char) :=
  match readLine incoming with
  | none => none
  | some (line, rest) =>
    if s.data_ready_callback_ then
      match extractAll extract (line.length + 1) line with
      | none => none
      | some data =>
        if data.length > 0 then some ([[s.normalize data]], rest)
        else some ([], rest)
    else some ([], rest)

end ASCIISerialStream

/-- What one pass of the update loop sees of the `ofArduino` after `arduino_.update()`:
the value of `isInitialized()` and the analog value of each pin. -/
structure ArduinoReading (α : Type) where
  isInitialized : Bool
  getAnalog : Int → α

/-- The outcome of running part of the update thread: the stream afterwards, the frames
handed to the callback, and whether execution stayed defined. When `defined` is false
the run stopped at an out-of-range element access and `state` is the stream at that
point. -/
structure UpdateResult (α : Type) where
  state : FirmataStream α
  frames : List (MatrixDouble α)
  defined : Bool

namespace FirmataStream

variable {α : Type}

/-- The pin loop `for (int i = 0; pins_.size(); i++) data[i] =
arduino_.getAnalog(pins_[i]);` (istream.cpp:276-277), entered with counter `i`. The
loop test is `pins_.size()`, which does not mention `i`; `data` has `pins_.size()`
elements, so `data[i]` and `pins_[i]` are in range exactly when `i < pins_.size()`.
The result is `none` when an element outside the vectors is accessed. -/
def readPins (getAnalog : Int → α) (pins : List Int) (i : Nat) (data : List α) :
    Option (List α) :=
  if pins.length ≠ 0 then
    if h : i < pins.length then
      readPins getAnalog pins (i + 1) (data.set i (getAnalog pins[i]))
    else none
  else some data
termination_by pins.length - i

/-- One pass through the body of the `while (has_started_)` loop of
`FirmataStream::update` (istream.cpp:271-287). -/
def updateIteration [Zero α] (r : ArduinoReading α) (s : FirmataStream α) :
    UpdateResult α :=
  if s.configured_arduino_ then
    match readPins r.getAnalog s.pins_ 0 (List.replicate s.pins_.length 0) with
    | none => ⟨s, [], false⟩
    | some data =>
      ⟨s, if s.data_ready_callback_ then [[s.normalize data]] else [], true⟩
  else if r.isInitialized then
    ⟨{ s with
        log := s.log ++ ["Configuring Arduino."]
        reportingSent := s.reportingSent ++ s.pins_.map fun p => (p, ARD_ON)
        configured_arduino_ := true }, [], true⟩
  else ⟨s, [], true⟩

/-- The `while (has_started_)` loop of `FirmataStream::update`, one pass per element of
`readings` (the passes made before the flag is seen cleared); it stops early when a
pass is undefined. -/
def updateLoop [Zero α] : FirmataStream α → List (ArduinoReading α) → UpdateResult α
  | s, [] => ⟨s, [], true⟩
  | s, r :: rs =>
    if s.has_started_ then
      if (updateIteration r s).defined then
        ⟨(updateLoop (updateIteration r s).state rs).state,
          (updateIteration r s).frames ++ (updateLoop (updateIteration r s).state rs).frames,
          (updateLoop (updateIteration r s).state rs).defined⟩
      else updateIteration r s
    else ⟨s, [], true⟩

/-- `FirmataStream::update` (istream.cpp:267-289), the body of the update thread. -/
def update [Zero α] (s : FirmataStream α) (readings : List (ArduinoReading α)) :
    UpdateResult α :=
  updateLoop { s with log := s.log ++ ["Serial port will be read every 10 ms"] } readings

end FirmataStream

/-! ## Sequences of public operations -/

/-- The public operations shared by all stream variants. -/
inductive StreamOp (α : Type) where
  | start
  | stop
  | setLabelsForAllDimensions (labels : List String)
  | setLabelsForAllDimensionsInit (list : List String)
  | useNormalizer (f : α → α)
  | useVectorNormalizer (g : List α → List α)
  | onDataReadyEvent

/-- The public operations of `FirmataStream`. -/
inductive FirmataOp (α : Type) where
  | common (op : StreamOp α)
  | useAnalogPin (i : Int)

/-- A shared operation applied to the `IStream` part of a stream; `start` and `stop`
belong to the variants and leave it alone here. -/
def IStream.applyOp {α : Type} (numOutputDimensions : Nat) (s : IStream α) :
    StreamOp α → IStream α
  | .start => s
  | .stop => s
  | .setLabelsForAllDimensions labels => s.setLabelsForAllDimensions labels
  | .setLabelsForAllDimensionsInit list =>
    s.setLabelsForAllDimensionsInit numOutputDimensions list
  | .useNormalizer f => s.useNormalizer f
  | .useVectorNormalizer g => s.useVectorNormalizer g
  | .onDataReadyEvent => s.onDataReadyEvent

/-- One public operation on an `AudioStream`. `numOut` is `getNumOutputDimensions()`,
declared in `istream.h`. -/
def AudioStream.applyOp {α : Type} (numOut : AudioStream α → Nat) (s : AudioStream α) :
    StreamOp α → AudioStream α
  | .start => s.start
  | .stop => s.stop
  | op => { s with toIStream := s.toIStream.applyOp (numOut s) op }

/-- One public operation on a `SerialStream`. -/
def SerialStream.applyOp {α : Type} (numOut : SerialStream α → Nat) (s : SerialStream α) :
    StreamOp α → SerialStream α
  | .start => s.start
  | .stop => s.stop
  | op => { s with toIStream := s.toIStream.applyOp (numOut s) op }

/-- One public operation on an `ASCIISerialStream`. -/
def ASCIISerialStream.applyOp {α : Type} (numOut : ASCIISerialStream α → Nat)
    (s : ASCIISerialStream α) : StreamOp α → ASCIISerialStream α
  | .start => s.start
  | .stop => s.stop
  | op => { s with toIStream := s.toIStream.applyOp (numOut s) op }

/-- One public operation on a `FirmataStream`. -/
def FirmataStream.applyOp {α : Type} (numOut : FirmataStream α → Nat)
    (s : FirmataStream α) : FirmataOp α → FirmataStream α
  | .common .start => s.start
  | .common .stop => s.stop
  | .common op => { s with toIStream := s.toIStream.applyOp (numOut s) op }
  | .useAnalogPin i => s.useAnalogPin i

/-- The number of `useAnalogPin` calls in a sequence of operations. -/
def FirmataOp.pinCalls {α : Type} : List (FirmataOp α) → Nat
  | [] => 0
  | .useAnalogPin _ :: ops => pinCalls ops + 1
  | .common _ :: ops => pinCalls ops

/-! ## SerialStream::readSerial -/

/-- `OF_SERIAL_NO_DATA` (from `ofConstants.h`). -/
def OF_SERIAL_NO_DATA : Int := -2

/-- `OF_SERIAL_ERROR` (from `ofConstants.h`). -/
def OF_SERIAL_ERROR : Int := -1

/-- The outcome of one `serial_->readBytes(buffer, length)` call: the bytes it stored at
the start of `buffer`, the no-data code or the error code. -/
inductive ReadBytes where
  | count (bytes : List Nat)
  | noData
  | error
  deriving DecidableEq, Repr

/-- The value `readBytes` returns: the number of bytes stored, `OF_SERIAL_NO_DATA` or
`OF_SERIAL_ERROR`. -/
def ReadBytes.result : ReadBytes → Int
  | .count bytes => (bytes.length : Int)
  | .noData => OF_SERIAL_NO_DATA
  | .error => OF_SERIAL_ERROR

/-- The bytes `readBytes` stored in the buffer it was given. -/
def ReadBytes.stored : ReadBytes → List Nat
  | .count bytes => bytes
  | .noData => []
  | .error => []

/-- What the driver answers in one pass of the `while (bytesRemaining > 0)` loop: the
value of `available()`, and the outcome of `readBytes` should it be called. -/
structure SerialPoll where
  available : Int
  readBytes : ReadBytes
  deriving DecidableEq, Repr

/-- The array after `bytes` were stored from index `offset` on. -/
def writeAt (buf : List Nat) (offset : Nat) (bytes : List Nat) : List Nat :=
  buf.take offset ++ bytes ++ buf.drop (offset + bytes.length)

/-- The state in which the `while (bytesRemaining > 0)` loop was left: the array
`bytes[]`, `bytesRemaining`, the lines logged and the driver answers not yet used. -/
structure BlockResult where
  bytes : List Nat
  bytesRemaining : Nat
  log : List String
  unused : List SerialPoll
  deriving DecidableEq, Repr

/-- The line `SerialStream::readSerial` logs when `readBytes` reports an error. -/
def serialErrorMsg : String := "Error reading from serial"

namespace SerialStream

variable {α : Type}

/-- The `while (bytesRemaining > 0)` loop of `SerialStream::readSerial`
(istream.cpp:127-148) over the driver's answers. `readBytes` is handed
`&bytes[bytesRequired - bytesRemaining]` and `bytesRemaining`; on `OF_SERIAL_ERROR` the
loop is left with `break`, on `OF_SERIAL_NO_DATA` it goes round again, otherwise
`bytesRemaining` drops by the count returned. The result is `none` when the driver
stores more than `bytesRemaining` bytes (a write past the array) or when the answers run
out while the loop is still polling. -/
def readBlock (bytesRequired : Nat) :
    List Nat → Nat → List SerialPoll → Option BlockResult
  | bytes, bytesRemaining, [] =>
    if bytesRemaining > 0 then none
    else some ⟨bytes, bytesRemaining, [], []⟩
  | bytes, bytesRemaining, p :: polls =>
    if bytesRemaining > 0 then
      if p.available > 0 then
        if p.readBytes.stored.length > bytesRemaining then none
        else
          if p.readBytes.result = OF_SERIAL_ERROR then
            some ⟨writeAt bytes (bytesRequired - bytesRemaining) p.readBytes.stored,
              bytesRemaining, [serialErrorMsg], polls⟩
          else if p.readBytes.result = OF_SERIAL_NO_DATA then
            readBlock bytesRequired
              (writeAt bytes (bytesRequired - bytesRemaining) p.readBytes.stored)
              bytesRemaining polls
          else
            readBlock bytesRequired
              (writeAt bytes (bytesRequired - bytesRemaining) p.readBytes.stored)
              (bytesRemaining - p.readBytes.result.toNat) polls
      else readBlock bytesRequired bytes bytesRemaining polls
    else some ⟨bytes, bytesRemaining, [], p :: polls⟩

/-- What one pass through the body of the `while (has_started_)` loop produced: the
frames handed to the callback, the lines logged, `bytesRemaining` when the inner loop
was left, and the driver answers not yet used. -/
structure SerialPass (α : Type) where
  frames : List (MatrixDouble α)
  log : List String
  bytesRemaining : Nat
  unused : List SerialPoll

/-- `(normalizer_ != nullptr) ? normalizer_(b) : b` (istream.cpp:152) for the value `b`
of a byte. -/
def byteSample [NatCast α] (s : SerialStream α) (b : Nat) : α :=
  match s.normalizer_ with
  | some f => f (b : α)
  | none => (b : α)

/-- One pass through the body of the `while (has_started_)` loop of
`SerialStream::readSerial` (istream.cpp:121-156). `kBufferSize_` is a constant of
`istream.h` and is a parameter; `indeterminate i` is the value element `i` of the
local array `bytes[]` holds before anything is stored in it. After the inner loop the
frame of `local_buffer_size` rows is built from `bytes[]` and handed to the callback. -/
def readSerialIteration [NatCast α] (kBufferSize_ : Nat) (indeterminate : Nat → Nat)
    (s : SerialStream α) (polls : List SerialPoll) : Option (SerialPass α) :=
  match readBlock kBufferSize_ ((List.range kBufferSize_).map indeterminate)
      kBufferSize_ polls with
  | none => none
  | some block =>
    match allReads ((List.range kBufferSize_).map fun (i : Nat) =>
        (block.bytes[i]?).map fun (b : Nat) => [s.byteSample b]) with
    | none => none
    | some data =>
      some ⟨if s.data_ready_callback_ then [data] else [], block.log,
        block.bytesRemaining, block.unused⟩

end SerialStream

/-- The bytes the driver stored during a run of answers: those of every `readBytes`
call made (a call is made when `available()` is positive). -/
def bytesStored : List SerialPoll → List Nat
  | [] => []
  | p :: polls =>
    if p.available > 0 then p.readBytes.stored ++ bytesStored polls
    else bytesStored polls

/-! ## The acquisition state observed by the start/stop claims -/

/-- The explicit state of the start/stop claims: the running flag and the number of
acquisition threads spawned so far. -/
structure Acquisition where
  hasStarted : Bool
  threadsSpawned : Nat
  deriving DecidableEq, Repr

/-- `AudioStream` owns no thread: the count is of the `sound_stream_->start()` calls,
each of which starts the driver's callback. -/
def AudioStream.acquisition {α : Type} (s : AudioStream α) : Acquisition :=
  ⟨s.has_started_, s.soundStarts⟩

/-- The running flag and thread count of a `SerialStream`. -/
def SerialStream.acquisition {α : Type} (s : SerialStream α) : Acquisition :=
  ⟨s.has_started_, s.threadsSpawned⟩

/-- The running flag and thread count of an `ASCIISerialStream`. -/
def ASCIISerialStream.acquisition {α : Type} (s : ASCIISerialStream α) : Acquisition :=
  ⟨s.has_started_, s.threadsSpawned⟩

/-- The running flag and thread count of a `FirmataStream`. -/
def FirmataStream.acquisition {α : Type} (s : FirmataStream α) : Acquisition :=
  ⟨s.has_started_, s.threadsSpawned⟩

/-! ## Theorems -/

section Normalize

variable {α : Type}

/-- C1: `IStream::normalize` returns, for every input vector `v`: the scalar normalizer
`f` applied to each element of `v` in order (same length as `v`) when only `f` is
registered; `g v` when a vector normalizer `g` is registered; and `v` itself when no
normalizer is registered. -/
theorem normalize_registered (s : IStream α) (v : List α) (f : α → α)
    (g : List α → List α) (o : Option (α → α)) :
    (IStream.normalize { s with normalizer_ := some f, vectorNormalizer_ := none } v
        = v.map f
      ∧ (IStream.normalize { s with normalizer_ := some f, vectorNormalizer_ := none }
          v).length = v.length
      ∧ ∀ i : Nat,
          (IStream.normalize { s with normalizer_ := some f, vectorNormalizer_ := none }
              v)[i]? = (v[i]?).map f)
    ∧ IStream.normalize { s with normalizer_ := o, vectorNormalizer_ := some g } v = g v
    ∧ IStream.normalize { s with normalizer_ := none, vectorNormalizer_ := none } v
        = v := by
  refine ⟨⟨rfl, ?_, ?_⟩, rfl, rfl⟩
  · simp [IStream.normalize]
  · intro i
    simp [IStream.normalize]

end Normalize

section StartStop

/-- C2: for every stream variant, `start()` on a stream that has already started changes
nothing but the log (for `AudioStream` nothing at all): the running flag, the thread
handle, the ports opened and the number of threads spawned are as before; and over the
explicit state (hasStarted, threads spawned) `start(start(s)) = start(s)` for every
state `s`. -/
theorem start_idempotent (α : Type) :
    (∀ s : AudioStream α,
        (s.has_started_ = true → s.start = s)
        ∧ s.start.start = s.start
        ∧ s.start.start.acquisition = s.start.acquisition)
    ∧ (∀ s : SerialStream α,
        (s.has_started_ = true →
          s.start = { s with log := s.start.log } ∧ s.start.acquisition = s.acquisition)
        ∧ s.start.start = { s.start with log := s.start.start.log }
        ∧ s.start.start.acquisition = s.start.acquisition)
    ∧ (∀ s : ASCIISerialStream α,
        (s.has_started_ = true →
          s.start = { s with log := s.start.log } ∧ s.start.acquisition = s.acquisition)
        ∧ s.start.start = { s.start with log := s.start.start.log }
        ∧ s.start.start.acquisition = s.start.acquisition)
    ∧ (∀ s : FirmataStream α,
        (s.has_started_ = true →
          s.start = { s with log := s.start.log } ∧ s.start.acquisition = s.acquisition)
        ∧ s.start.start = { s.start with log := s.start.start.log }
        ∧ s.start.start.acquisition = s.start.acquisition) := by
  refine ⟨?_, ?_, ?_, ?_⟩
  · rintro ⟨⟨hs, cb, n, vn, l⟩, d, r, c⟩
    cases hs <;> simp [AudioStream.start, AudioStream.acquisition]
  · rintro ⟨⟨hs, cb, n, vn, l⟩, port, baud, th, su, sp, lg⟩
    by_cases hp : port = -1 <;> cases hs <;>
      simp [SerialStream.start, SerialStream.acquisition, hp]
  · rintro ⟨⟨hs, cb, n, vn, l⟩, port, baud, dim, th, su, sp, lg⟩
    by_cases hp : port = -1 <;> cases hs <;>
      simp [ASCIISerialStream.start, ASCIISerialStream.acquisition, hp]
  · rintro ⟨⟨hs, cb, n, vn, l⟩, port, pins, cfg, th, cn, sp, rs, lg⟩
    by_cases hp : port = -1 <;> cases hs <;> cases pins <;>
      simp [FirmataStream.start, FirmataStream.acquisition, hp]

/-- Witness for C2: a serial stream on port 0 is started; starting it again leaves one
thread spawned, one port opened and the stream running. -/
theorem start_idempotent_witness :
    (SerialStream.new 0 9600 : SerialStream Int).start.has_started_ = true
    ∧ (SerialStream.new 0 9600 : SerialStream Int).start.start.acquisition = ⟨true, 1⟩
    ∧ (SerialStream.new 0 9600 : SerialStream Int).start.start.serialSetups
        = [(0, 9600)] := by
  have h := ((start_idempotent Int).2.1 (SerialStream.new 0 9600).start).1 rfl
  refine ⟨rfl, ?_, ?_⟩
  · rw [h.2]; rfl
  · rw [h.1]; rfl

/-- C3: for every stream variant and every state, after `stop()` the running flag is
false and the thread handle is not a joinable thread; `stop()` on a stream that is not
started and has no unjoined thread leaves the state unchanged, and
`stop(stop(s)) = stop(s)`. The state after `stop()` is fixed exactly: a thread-owning
stream keeps its thread handle, a joinable thread has been joined (`some true` becomes
`some false`, never `nullptr`) and nothing but the flag and the handle changes; a
started `AudioStream` has its sound stream stopped and nothing but the flag and the
sound stream changes; after `start()` then `stop()` the sound stream is not running,
and the thread spawned by a `start()` that took effect has been joined. -/
theorem stop_halts (α : Type) :
    (∀ s : AudioStream α,
        s.stop.has_started_ = false
        ∧ (s.has_started_ = false → s.stop = s)
        ∧ s.stop.stop = s.stop
        ∧ (s.has_started_ = true →
            s.stop = { s with soundRunning := false, has_started_ := false })
        ∧ (s.has_started_ = true → s.stop.soundRunning = false)
        ∧ s.start.stop.soundRunning = false
        ∧ s.stop.soundStarts = s.soundStarts)
    ∧ (∀ s : SerialStream α,
        s.stop.has_started_ = false
        ∧ s.stop.reading_thread_ ≠ some true
        ∧ s.stop.threadsSpawned = s.threadsSpawned
        ∧ (s.has_started_ = false → s.reading_thread_ ≠ some true → s.stop = s)
        ∧ s.stop.stop = s.stop
        ∧ s.stop = { s with
            has_started_ := false
            reading_thread_ := s.reading_thread_.map fun _ => false }
        ∧ (s.reading_thread_ = some true → s.stop.reading_thread_ = some false)
        ∧ (s.stop.reading_thread_ = none ↔ s.reading_thread_ = none)
        ∧ (s.has_started_ = false → s.start.stop.reading_thread_ = some false))
    ∧ (∀ s : ASCIISerialStream α,
        s.stop.has_started_ = false
        ∧ s.stop.reading_thread_ ≠ some true
        ∧ s.stop.threadsSpawned = s.threadsSpawned
        ∧ (s.has_started_ = false → s.reading_thread_ ≠ some true → s.stop = s)
        ∧ s.stop.stop = s.stop
        ∧ s.stop = { s with
            has_started_ := false
            reading_thread_ := s.reading_thread_.map fun _ => false }
        ∧ (s.reading_thread_ = some true → s.stop.reading_thread_ = some false)
        ∧ (s.stop.reading_thread_ = none ↔ s.reading_thread_ = none)
        ∧ (s.has_started_ = false → s.start.stop.reading_thread_ = some false))
    ∧ (∀ s : FirmataStream α,
        s.stop.has_started_ = false
        ∧ s.stop.update_thread_ ≠ some true
        ∧ s.stop.threadsSpawned = s.threadsSpawned
        ∧ (s.has_started_ = false → s.update_thread_ ≠ some true → s.stop = s)
        ∧ s.stop.stop = s.stop
        ∧ s.stop = { s with
            has_started_ := false
            update_thread_ := s.update_thread_.map fun _ => false }
        ∧ (s.update_thread_ = some true → s.stop.update_thread_ = some false)
        ∧ (s.stop.update_thread_ = none ↔ s.update_thread_ = none)
        ∧ (s.has_started_ = false → s.port_ ≠ -1 → s.pins_ ≠ [] →
            s.start.stop.update_thread_ = some false)) := by
  refine ⟨?_, ?_, ?_, ?_⟩
  · rintro ⟨⟨hs, cb, n, vn, l⟩, d, r, c⟩
    cases hs <;> simp [AudioStream.stop, AudioStream.start]
  · rintro ⟨⟨hs, cb, n, vn, l⟩, port, baud, th, su, sp, lg⟩
    rcases th with _ | _ | _ <;> cases hs <;> by_cases hp : port = -1 <;>
      simp [SerialStream.stop, SerialStream.start, hp]
  · rintro ⟨⟨hs, cb, n, vn, l⟩, port, baud, dim, th, su, sp, lg⟩
    rcases th with _ | _ | _ <;> cases hs <;> by_cases hp : port = -1 <;>
      simp [ASCIISerialStream.stop, ASCIISerialStream.start, hp]
  · rintro ⟨⟨hs, cb, n, vn, l⟩, port, pins, cfg, th, cn, sp, rs, lg⟩
    rcases th with _ | _ | _ <;> cases hs <;> by_cases hp : port = -1 <;>
      cases pins <;> simp [FirmataStream.stop, FirmataStream.start, hp]

/-- Witness for C3: a freshly constructed serial stream is unchanged by `stop()`, and a
started one is stopped with its thread joined and its handle kept. -/
theorem stop_halts_witness :
    (SerialStream.new 0 9600 : SerialStream Int).stop = SerialStream.new 0 9600
    ∧ (SerialStream.new 0 9600 : SerialStream Int).start.reading_thread_ = some true
    ∧ (SerialStream.new 0 9600 : SerialStream Int).start.stop.has_started_ = false
    ∧ (SerialStream.new 0 9600 : SerialStream Int).start.stop.reading_thread_
        = some false := by
  have h := (stop_halts Int).2.1 (SerialStream.new 0 9600)
  have h2 := (stop_halts Int).2.1 (SerialStream.new 0 9600).start
  exact ⟨h.2.2.2.1 rfl (by simp [SerialStream.new]), rfl, h2.1, h2.2.2.2.2.2.2.1 rfl⟩

/-- C4 (evaluation at the failing input): `start()` on a stopped `SerialStream` or
`ASCIISerialStream` whose port is unset (`port_ == -1`) logs the error and then still
opens the port, spawns the thread and sets the running flag; `FirmataStream::start`
returns after logging under the same condition and with no pin registered. -/
theorem start_unset_port_not_aborted :
    ((SerialStream.new (-1) 115200 : SerialStream Int).has_started_ = false
      ∧ (SerialStream.new (-1) 115200 : SerialStream Int).start.log = [portNotSetMsg]
      ∧ (SerialStream.new (-1) 115200 : SerialStream Int).start.has_started_ = true
      ∧ (SerialStream.new (-1) 115200 : SerialStream Int).start.threadsSpawned = 1
      ∧ (SerialStream.new (-1) 115200 : SerialStream Int).start.serialSetups
          = [(-1, 115200)])
    ∧ ((ASCIISerialStream.new (-1) 9600 3 : ASCIISerialStream Int).has_started_ = false
      ∧ (ASCIISerialStream.new (-1) 9600 3 : ASCIISerialStream Int).start.log
          = [portNotSetMsg]
      ∧ (ASCIISerialStream.new (-1) 9600 3 : ASCIISerialStream Int).start.has_started_
          = true
      ∧ (ASCIISerialStream.new (-1) 9600 3 : ASCIISerialStream Int).start.threadsSpawned
          = 1
      ∧ (ASCIISerialStream.new (-1) 9600 3 : ASCIISerialStream Int).start.serialSetups
          = [(-1, 9600)])
    ∧ ((FirmataStream.useAnalogPin 0 (FirmataStream.new (-1) : FirmataStream Int)).start
          = { FirmataStream.useAnalogPin 0 (FirmataStream.new (-1)) with
              log := [portNotSetMsg] }
      ∧ (FirmataStream.new 0 : FirmataStream Int).start
          = { (FirmataStream.new 0 : FirmataStream Int) with log := [pinNotSetMsg] }) := by
  refine ⟨⟨rfl, rfl, rfl, rfl, rfl⟩, ⟨rfl, rfl, rfl, rfl, rfl⟩, rfl, rfl⟩

end StartStop


section AudioIn

variable {α : Type}

theorem allReads_map_some {ι β : Type} (l : List ι) (f : ι → Option β) (g : ι → β)
    (h : ∀ i ∈ l, f i = some (g i)) : allReads (l.map f) = some (l.map g) := by
  induction l with
  | nil => rfl
  | cons a l ih =>
    have ha : f a = some (g a) := h a (List.mem_cons_self a l)
    have hl : allReads (l.map f) = some (l.map g) :=
      ih (fun i hi => h i (List.mem_cons_of_mem a hi))
    simp [allReads, ha, hl]

theorem toUInt32_natCast (n : Nat) (h : n < 2 ^ 32) : toUInt32 (n : Int) = n := by
  unfold toUInt32
  omega

/-- The frame built by `audioIn` in closed form: row `i` holds `input[i * d]`. -/
theorem audioIn_eq (s : AudioStream α) (input : List α) (nChannel : Int)
    (hd : 1 ≤ s.downsample_rate_) (hd2 : s.downsample_rate_ < 2 ^ 32)
    (hlen : input.length < 2 ^ 31) :
    s.audioIn input (input.length : Int) nChannel
      = some (if s.data_ready_callback_ then
          [(List.range (input.length / s.downsample_rate_)).map
            fun i => (input[i * s.downsample_rate_]?).toList]
        else []) := by
  have hrows : input.length / s.downsample_rate_ ≤ input.length := Nat.div_le_self _ _
  have hne : s.downsample_rate_ ≠ 0 := by omega
  have hlen32 : toUInt32 (input.length : Int) = input.length :=
    toUInt32_natCast _ (by omega)
  have hrd : allReads ((List.range (input.length / s.downsample_rate_)).map fun (i : Nat) =>
      allReads ((List.range (1 : Int).toNat).map fun (j : Nat) =>
        input[(toUInt32 ((i : Int) * 1) * s.downsample_rate_
          + toUInt32 (j : Int)) % 2 ^ 32]?))
      = some ((List.range (input.length / s.downsample_rate_)).map
          fun i => (input[i * s.downsample_rate_]?).toList) := by
    apply allReads_map_some
    intro i hi
    have hi2 : i < input.length / s.downsample_rate_ := List.mem_range.mp hi
    have hmul : i * s.downsample_rate_ < input.length := by
      have := Nat.div_mul_le_self input.length s.downsample_rate_
      have h2 : (i + 1) * s.downsample_rate_
          ≤ input.length / s.downsample_rate_ * s.downsample_rate_ :=
        Nat.mul_le_mul_right _ hi2
      have h3 : (i + 1) * s.downsample_rate_ = i * s.downsample_rate_ + s.downsample_rate_ :=
        Nat.succ_mul _ _
      omega
    have hi32 : toUInt32 ((i : Int) * 1) = i := by
      rw [Int.mul_one]
      exact toUInt32_natCast _ (by omega)
    have h0 : toUInt32 ((0 : Nat) : Int) = 0 := toUInt32_natCast 0 (by norm_num)
    have hidx : (i * s.downsample_rate_ + 0) % 2 ^ 32 = i * s.downsample_rate_ :=
      Nat.mod_eq_of_lt (by omega)
    have hget : input[i * s.downsample_rate_]? = some input[i * s.downsample_rate_] :=
      List.getElem?_eq_getElem hmul
    show allReads ((List.range 1).map fun (j : Nat) =>
        input[(toUInt32 ((i : Int) * 1) * s.downsample_rate_
          + toUInt32 (j : Int)) % 2 ^ 32]?) = _
    have hr1 : List.range 1 = [0] := rfl
    rw [hr1]
    simp only [List.map_cons, List.map_nil, hi32, Nat.cast_zero, Nat.cast_ofNat]
    rw [show toUInt32 (0 : Int) = 0 from rfl, hidx, hget]
    rfl
  unfold AudioStream.audioIn
  simp only [hne, if_false, Int.tdiv_one, hlen32]
  rw [if_neg (by omega)]
  simp only [hrd, Option.map_some']

/-- C5: `AudioStream::audioIn` on a single-channel buffer of `buffer_size` samples with
downsample factor `d >= 1` (callback registered) emits exactly one frame; it has
`buffer_size / d` rows of one column, every index `i * d` read lies inside the buffer,
and row `i` is `input[i * d]`. -/
theorem audioIn_downsample (s : AudioStream α) (input : List α) (buffer_size : Nat)
    (nChannel : Int) (hlen : input.length = buffer_size) (hsize : buffer_size < 2 ^ 31)
    (hd : 1 ≤ s.downsample_rate_) (hd2 : s.downsample_rate_ < 2 ^ 32)
    (hcb : s.data_ready_callback_ = true) :
    ∃ frame : MatrixDouble α,
      s.audioIn input (buffer_size : Int) nChannel = some [frame]
      ∧ frame.length = buffer_size / s.downsample_rate_
      ∧ ∀ i : Nat, i < buffer_size / s.downsample_rate_ →
          i * s.downsample_rate_ < buffer_size
          ∧ ∃ x : α, input[i * s.downsample_rate_]? = some x ∧ frame[i]? = some [x] := by
  subst hlen
  refine ⟨(List.range (input.length / s.downsample_rate_)).map
    fun i => (input[i * s.downsample_rate_]?).toList, ?_, ?_, ?_⟩
  · rw [audioIn_eq s input nChannel hd hd2 hsize, hcb]
    rfl
  · simp
  · intro i hi
    have hmul : i * s.downsample_rate_ < input.length := by
      have := Nat.div_mul_le_self input.length s.downsample_rate_
      have h2 : (i + 1) * s.downsample_rate_
          ≤ input.length / s.downsample_rate_ * s.downsample_rate_ :=
        Nat.mul_le_mul_right _ hi
      have h3 : (i + 1) * s.downsample_rate_ = i * s.downsample_rate_ + s.downsample_rate_ :=
        Nat.succ_mul _ _
      omega
    refine ⟨hmul, input[i * s.downsample_rate_], List.getElem?_eq_getElem hmul, ?_⟩
    simp [hi, List.getElem?_eq_getElem hmul]

end AudioIn

section AudioInWitness

/-- Witness for C5: a 256-sample buffer holding 0, 1, ..., 255 with downsample factor 2
gives one frame of 128 rows, holding the samples at 0, 2, ..., 254. -/
theorem audioIn_downsample_witness :
    (1 ≤ ({ AudioStream.new 2 with data_ready_callback_ := true }
            : AudioStream Nat).downsample_rate_)
    ∧ ∃ frame : MatrixDouble Nat,
        AudioStream.audioIn
            ({ AudioStream.new 2 with data_ready_callback_ := true } : AudioStream Nat)
            (List.range 256) 256 2 = some [frame]
        ∧ frame.length = 128
        ∧ frame[0]? = some [0] ∧ frame[1]? = some [2] ∧ frame[127]? = some [254] := by
  refine ⟨by decide, ?_⟩
  obtain ⟨frame, h1, h2, h3⟩ :=
    audioIn_downsample
      ({ AudioStream.new 2 with data_ready_callback_ := true } : AudioStream Nat)
      (List.range 256) 256 2 (by simp) (by norm_num) (by decide) (by decide) rfl
  refine ⟨frame, h1, h2, ?_, ?_, ?_⟩
  · obtain ⟨_, x, hx, hf⟩ := h3 0 (by decide)
    have : x = 0 := by
      have h : (List.range 256)[0]? = some x := hx
      simpa using h.symm
    rw [this] at hf; exact hf
  · obtain ⟨_, x, hx, hf⟩ := h3 1 (by decide)
    have : x = 2 := by
      have h : (List.range 256)[2]? = some x := hx
      simpa using h.symm
    rw [this] at hf; exact hf
  · obtain ⟨_, x, hx, hf⟩ := h3 127 (by decide)
    have : x = 254 := by
      have h : (List.range 256)[254]? = some x := hx
      simpa using h.symm
    rw [this] at hf; exact hf

end AudioInWitness

section SleepTime

theorem asInt32_of_range (x : Int) (h : -2 ^ 31 ≤ x ∧ x < 2 ^ 31) : asInt32 x = some x := by
  unfold asInt32
  rw [if_pos h]

theorem tdiv_in_int32 (a b : Int) (ha : -2 ^ 31 < a ∧ a < 2 ^ 31) :
    -2 ^ 31 ≤ Int.tdiv a b ∧ Int.tdiv a b < 2 ^ 31 := by
  have h1 : (Int.tdiv a b).natAbs = a.natAbs / b.natAbs := Int.natAbs_tdiv a b
  have h2 : a.natAbs / b.natAbs ≤ a.natAbs := Nat.div_le_self _ _
  omega

/-- C6: `SerialStream::readSerial` computes its inter-read sleep, for every buffer size
`B` whose product `B * 1000` fits an `int` and every baud rate with `baud / 10 != 0`, as
`B * 1000 / (baud / 10)` with truncating division at both divisions: for non-negative
operands the inner quotient `t` satisfies `10 * t <= baud < 10 * t + 10` and the result
`q` satisfies `q * t <= B * 1000 < (q + 1) * t`. -/
theorem sleepTime_truncates (α : Type) (s : SerialStream α) (B : Int)
    (hB : -2 ^ 31 ≤ B * 1000 ∧ B * 1000 < 2 ^ 31) (h0 : Int.tdiv s.baud_ 10 ≠ 0) :
    SerialStream.sleepTime B s = some (Int.tdiv (B * 1000) (Int.tdiv s.baud_ 10))
    ∧ (0 ≤ B → 0 < s.baud_ →
        10 * Int.tdiv s.baud_ 10 ≤ s.baud_
        ∧ s.baud_ < 10 * Int.tdiv s.baud_ 10 + 10
        ∧ 0 ≤ Int.tdiv (B * 1000) (Int.tdiv s.baud_ 10)
        ∧ Int.tdiv (B * 1000) (Int.tdiv s.baud_ 10) * Int.tdiv s.baud_ 10 ≤ B * 1000
        ∧ B * 1000 < (Int.tdiv (B * 1000) (Int.tdiv s.baud_ 10) + 1) * Int.tdiv s.baud_ 10) := by
  constructor
  · unfold SerialStream.sleepTime
    rw [asInt32_of_range _ hB]
    simp only [h0, if_false]
    exact asInt32_of_range _ (tdiv_in_int32 _ _ (by omega))
  · intro hB0 hbaud
    have ht : Int.tdiv s.baud_ 10 = s.baud_ / 10 :=
      Int.tdiv_eq_ediv (by omega) (by norm_num)
    have htpos : 0 < Int.tdiv s.baud_ 10 := by
      have : 0 ≤ s.baud_ / 10 := by omega
      omega
    have hq : Int.tdiv (B * 1000) (Int.tdiv s.baud_ 10)
        = (B * 1000) / Int.tdiv s.baud_ 10 :=
      Int.tdiv_eq_ediv (by omega) (by omega)
    refine ⟨by omega, by omega, ?_, ?_, ?_⟩
    · rw [hq]; exact Int.ediv_nonneg (by omega) (by omega)
    · rw [hq]; exact Int.ediv_mul_le _ (by omega)
    · rw [hq]; exact Int.lt_ediv_add_one_mul_self _ htpos

/-- Witness for C6: buffer size 4 at 115200 baud gives `4 * 1000 / (115200 / 10)`, which
truncates the exact quotient 0.347... to 0 milliseconds. -/
theorem sleepTime_truncates_witness :
    SerialStream.sleepTime 4 (SerialStream.new 0 115200 : SerialStream Int) = some 0
    ∧ Int.tdiv 115200 10 = 11520
    ∧ (0 : ℚ) ≤ (4 * 1000 : ℚ) / (115200 / 10)
    ∧ (4 * 1000 : ℚ) / (115200 / 10) < 1 := by
  have h := (sleepTime_truncates Int (SerialStream.new 0 115200) 4
    (by norm_num) (by decide)).1
  refine ⟨?_, by decide, by norm_num, by norm_num⟩
  rw [h]
  decide

end SleepTime

section ASCIIReadSerial

end ASCIIReadSerial

section ASCIIReadSerialWitness

end ASCIIReadSerialWitness

section FirmataUpdate

variable {α : Type}

theorem readPins_overrun (getAnalog : Int → α) (pins : List Int) (hp : pins ≠ []) :
    ∀ (n i : Nat) (data : List α), pins.length - i = n →
      FirmataStream.readPins getAnalog pins i data = none := by
  have hlen : pins.length ≠ 0 := fun h => hp (List.length_eq_zero.mp h)
  intro n
  induction n with
  | zero =>
    intro i data h
    rw [FirmataStream.readPins]
    have hi : ¬ i < pins.length := by omega
    simp [hlen, hi]
  | succ k ih =>
    intro i data h
    rw [FirmataStream.readPins]
    have hi : i < pins.length := by omega
    simp only [hlen, ne_eq, not_false_eq_true, if_true, hi, dite_true]
    exact ih (i + 1) _ (by omega)

theorem readPins_no_pins (getAnalog : Int → α) (i : Nat) (data : List α) :
    FirmataStream.readPins getAnalog [] i data = some data := by
  rw [FirmataStream.readPins]
  simp

theorem updateIteration_configured [Zero α] (r : ArduinoReading α) (t : FirmataStream α)
    (h : t.configured_arduino_ = true) : (FirmataStream.updateIteration r t).state = t := by
  unfold FirmataStream.updateIteration
  simp only [h, if_true]
  split <;> rfl

theorem updateLoop_uninitialized [Zero α] (pre : List (ArduinoReading α))
    (t : FirmataStream α) (hc : t.configured_arduino_ = false)
    (hpre : ∀ x ∈ pre, x.isInitialized = false) :
    FirmataStream.updateLoop t pre = ⟨t, [], true⟩ := by
  induction pre with
  | nil => rfl
  | cons r rs ih =>
    have hr : r.isInitialized = false := hpre r (List.mem_cons_self r rs)
    have hstep : FirmataStream.updateIteration r t = ⟨t, [], true⟩ := by
      simp [FirmataStream.updateIteration, hc, hr]
    have hrest := ih (fun x hx => hpre x (List.mem_cons_of_mem r hx))
    cases hs : t.has_started_ <;>
      simp [FirmataStream.updateLoop, hs, hstep, hrest]

theorem updateLoop_configured [Zero α] (post : List (ArduinoReading α)) :
    ∀ t : FirmataStream α, t.configured_arduino_ = true →
      (FirmataStream.updateLoop t post).state = t := by
  induction post with
  | nil => intro t _; rfl
  | cons r rs ih =>
    intro t hc
    have hst := updateIteration_configured r t hc
    unfold FirmataStream.updateLoop
    cases hs : t.has_started_
    · simp
    · cases hd : (FirmataStream.updateIteration r t).defined
      · simp [hst]
      · simp only [if_true, hst]
        exact ih t hc

theorem updateLoop_first_initialized [Zero α] (pre : List (ArduinoReading α))
    (r : ArduinoReading α) (post : List (ArduinoReading α)) (t : FirmataStream α)
    (hs : t.has_started_ = true) (hc : t.configured_arduino_ = false)
    (hpre : ∀ x ∈ pre, x.isInitialized = false) (hr : r.isInitialized = true) :
    (FirmataStream.updateLoop t (pre ++ r :: post)).state
      = { t with
          log := t.log ++ ["Configuring Arduino."]
          reportingSent := t.reportingSent ++ t.pins_.map fun p => (p, ARD_ON)
          configured_arduino_ := true } := by
  induction pre with
  | nil =>
    have hstep : FirmataStream.updateIteration r t
        = ⟨{ t with
              log := t.log ++ ["Configuring Arduino."]
              reportingSent := t.reportingSent ++ t.pins_.map fun p => (p, ARD_ON)
              configured_arduino_ := true }, [], true⟩ := by
      simp [FirmataStream.updateIteration, hc, hr]
    simp only [List.nil_append, FirmataStream.updateLoop, hs, if_true, hstep]
    exact updateLoop_configured post _ rfl
  | cons a l ih =>
    have ha : a.isInitialized = false := hpre a (List.mem_cons_self a l)
    have hstep : FirmataStream.updateIteration a t = ⟨t, [], true⟩ := by
      simp [FirmataStream.updateIteration, hc, ha]
    simp only [List.cons_append, FirmataStream.updateLoop, hs, if_true, hstep]
    exact ih (fun x hx => hpre x (List.mem_cons_of_mem a hx))

/-- C8: the update thread run after a `start()` that took effect, over any sequence of
`isInitialized` readings. While every reading so far is "not initialized" no
analog-reporting command has been sent and the stream is unconfigured; in the first pass
that sees the connection initialized exactly one `sendAnalogPinReporting(pin, ARD_ON)`
is sent for each registered pin, in pin order; whatever passes follow, no further
command is sent and the configured flag stays true. A single pass from a configured
state never sends a command and never clears the flag. -/
theorem update_reports_once (α : Type) [Zero α] (s : FirmataStream α)
    (hs : s.has_started_ = false) (hport : s.port_ ≠ -1) (hpins : s.pins_ ≠ []) :
    (s.start.has_started_ = true ∧ s.start.configured_arduino_ = false
      ∧ s.start.reportingSent = s.reportingSent ∧ s.start.pins_ = s.pins_)
    ∧ (∀ pre : List (ArduinoReading α), (∀ x ∈ pre, x.isInitialized = false) →
        (s.start.update pre).state.reportingSent = s.reportingSent
        ∧ (s.start.update pre).state.configured_arduino_ = false
        ∧ (s.start.update pre).defined = true)
    ∧ (∀ (pre : List (ArduinoReading α)) (r : ArduinoReading α)
        (post : List (ArduinoReading α)),
        (∀ x ∈ pre, x.isInitialized = false) → r.isInitialized = true →
        (s.start.update (pre ++ [r])).state.reportingSent
            = s.reportingSent ++ s.pins_.map (fun p => (p, ARD_ON))
        ∧ (s.start.update (pre ++ r :: post)).state.reportingSent
            = s.reportingSent ++ s.pins_.map (fun p => (p, ARD_ON))
        ∧ (s.start.update (pre ++ r :: post)).state.configured_arduino_ = true)
    ∧ (∀ (t : FirmataStream α) (r : ArduinoReading α), t.configured_arduino_ = true →
        (FirmataStream.updateIteration r t).state.reportingSent = t.reportingSent
        ∧ (FirmataStream.updateIteration r t).state.configured_arduino_ = true) := by
  have hlen : s.pins_.length ≠ 0 := fun h => hpins (List.length_eq_zero.mp h)
  have hstart : s.start = { s with
      configured_arduino_ := false
      connects := s.connects ++ [s.port_]
      update_thread_ := some true
      threadsSpawned := s.threadsSpawned + 1
      has_started_ := true } := by
    simp [FirmataStream.start, hport, hlen, hs]
  refine ⟨?_, ?_, ?_, ?_⟩
  · rw [hstart]
    exact ⟨rfl, rfl, rfl, rfl⟩
  · intro pre hpre
    unfold FirmataStream.update
    rw [updateLoop_uninitialized pre _ (by rw [hstart]) hpre, hstart]
    exact ⟨rfl, rfl, rfl⟩
  · intro pre r post hpre hr
    unfold FirmataStream.update
    rw [updateLoop_first_initialized pre r [] _ (by rw [hstart]) (by rw [hstart]) hpre hr,
      updateLoop_first_initialized pre r post _ (by rw [hstart]) (by rw [hstart]) hpre hr,
      hstart]
    exact ⟨rfl, rfl, rfl⟩
  · intro t r ht
    rw [updateIteration_configured r t ht]
    exact ⟨rfl, ht⟩

/-- Witness for C8: a stream on port 0 with pins 0 and 3 is started; after two passes
that see the connection not initialized and one that sees it initialized, the commands
sent are `(0, ARD_ON)` and `(3, ARD_ON)`, and a further pass adds none. -/
theorem update_reports_once_witness :
    (FirmataStream.update
        (FirmataStream.start
          (FirmataStream.useAnalogPin 3
            (FirmataStream.useAnalogPin 0 (FirmataStream.new 0 : FirmataStream Int))))
        ([⟨false, fun _ => 0⟩, ⟨false, fun _ => 0⟩] ++ [⟨true, fun _ => 0⟩])).state.reportingSent
      = [] ++ [0, 3].map (fun p => (p, ARD_ON))
    ∧ (FirmataStream.update
        (FirmataStream.start
          (FirmataStream.useAnalogPin 3
            (FirmataStream.useAnalogPin 0 (FirmataStream.new 0 : FirmataStream Int))))
        ([⟨false, fun _ => 0⟩, ⟨false, fun _ => 0⟩]
          ++ ⟨true, fun _ => 0⟩ :: [⟨true, fun _ => 5⟩])).state.reportingSent
      = [] ++ [0, 3].map (fun p => (p, ARD_ON)) := by
  have h := (update_reports_once Int
    (FirmataStream.useAnalogPin 3
      (FirmataStream.useAnalogPin 0 (FirmataStream.new 0 : FirmataStream Int)))
    rfl (by decide) (by simp [FirmataStream.useAnalogPin, FirmataStream.new])).2.2.1
    [⟨false, fun _ => 0⟩, ⟨false, fun _ => 0⟩] ⟨true, fun _ => 0⟩ [⟨true, fun _ => 5⟩]
    (by simp) rfl
  exact ⟨h.1, h.2.1⟩

/-- C9 (evaluation at the failing input): a started stream on port 0 with the single
pin 0 is configured by a first pass; in the next pass the pin loop, whose test is
`pins_.size()`, reads pin index 0 and then index 1, outside `pins_` and `data`: the
pass is undefined and no frame reaches the callback. -/
theorem update_configured_overruns :
    (FirmataStream.update
        (FirmataStream.start
          (FirmataStream.useAnalogPin 0
            { (FirmataStream.new 0 : FirmataStream Int) with data_ready_callback_ := true }))
        [⟨true, fun _ => 512⟩]).state.configured_arduino_ = true
    ∧ (FirmataStream.update
        (FirmataStream.start
          (FirmataStream.useAnalogPin 0
            { (FirmataStream.new 0 : FirmataStream Int) with data_ready_callback_ := true }))
        [⟨true, fun _ => 512⟩]).defined = true
    ∧ FirmataStream.readPins (fun _ => (512 : Int)) [0] 0 [0] = none
    ∧ (FirmataStream.update
        (FirmataStream.start
          (FirmataStream.useAnalogPin 0
            { (FirmataStream.new 0 : FirmataStream Int) with data_ready_callback_ := true }))
        [⟨true, fun _ => 512⟩, ⟨true, fun _ => 512⟩]).defined = false
    ∧ (FirmataStream.update
        (FirmataStream.start
          (FirmataStream.useAnalogPin 0
            { (FirmataStream.new 0 : FirmataStream Int) with data_ready_callback_ := true }))
        [⟨true, fun _ => 512⟩, ⟨true, fun _ => 512⟩]).frames = [] := by
  have hrd : FirmataStream.readPins (fun _ => (512 : Int)) [0] 0 [0] = none :=
    readPins_overrun _ [0] (by simp) _ 0 [0] rfl
  refine ⟨rfl, rfl, hrd, ?_, ?_⟩ <;>
    simp [FirmataStream.update, FirmataStream.updateLoop, FirmataStream.updateIteration,
      FirmataStream.start, FirmataStream.useAnalogPin, FirmataStream.new, IStream.new, hrd]

end FirmataUpdate

section Dimensions

variable {α : Type}

theorem ASCIISerialStream.applyOp_numDimensions (numOut : ASCIISerialStream α → Nat)
    (s : ASCIISerialStream α) (op : StreamOp α) :
    (s.applyOp numOut op).numDimensions_ = s.numDimensions_ := by
  cases op with
  | start =>
    simp only [ASCIISerialStream.applyOp, ASCIISerialStream.start]
    split <;> split <;> rfl
  | stop =>
    simp only [ASCIISerialStream.applyOp, ASCIISerialStream.stop]
    split <;> rfl
  | _ => rfl

theorem ASCIISerialStream.foldl_numDimensions (numOut : ASCIISerialStream α → Nat)
    (ops : List (StreamOp α)) :
    ∀ s : ASCIISerialStream α,
      (ops.foldl (ASCIISerialStream.applyOp numOut) s).numDimensions_ = s.numDimensions_ := by
  induction ops with
  | nil => intro s; rfl
  | cons op rest ih =>
    intro s
    rw [List.foldl_cons, ih, ASCIISerialStream.applyOp_numDimensions]

theorem FirmataStream.applyOp_common_pins (numOut : FirmataStream α → Nat)
    (s : FirmataStream α) (op : StreamOp α) :
    (s.applyOp numOut (.common op)).pins_ = s.pins_ := by
  cases op with
  | start =>
    simp only [FirmataStream.applyOp, FirmataStream.start]
    split
    · rfl
    · split
      · rfl
      · split <;> rfl
  | stop =>
    simp only [FirmataStream.applyOp, FirmataStream.stop]
    split <;> rfl
  | _ => rfl

theorem FirmataStream.foldl_pins_length (numOut : FirmataStream α → Nat)
    (ops : List (FirmataOp α)) :
    ∀ s : FirmataStream α,
      (ops.foldl (FirmataStream.applyOp numOut) s).pins_.length
        = s.pins_.length + FirmataOp.pinCalls ops := by
  induction ops with
  | nil => intro s; rfl
  | cons op rest ih =>
    intro s
    rw [List.foldl_cons, ih]
    cases op with
    | common c =>
      rw [FirmataStream.applyOp_common_pins]
      rfl
    | useAnalogPin i =>
      simp only [FirmataStream.applyOp, FirmataStream.useAnalogPin, List.length_append,
        List.length_singleton, FirmataOp.pinCalls]
      omega

/-- C10 (the claim as stated fails): on a freshly constructed `FirmataStream`
`getNumInputDimensions()` is 0, and after the public operation `useAnalogPin(0)` it
is 1, so it is not the same after every sequence of public operations. -/
theorem firmata_dimensions_not_fixed :
    (FirmataStream.new 0 : FirmataStream Int).getNumInputDimensions = 0
    ∧ (FirmataStream.applyOp FirmataStream.getNumInputDimensions
        (FirmataStream.new 0 : FirmataStream Int) (.useAnalogPin 0)).getNumInputDimensions = 1
    ∧ ¬ ∀ ops : List (FirmataOp Int),
        (ops.foldl (FirmataStream.applyOp FirmataStream.getNumInputDimensions)
          (FirmataStream.new 0 : FirmataStream Int)).getNumInputDimensions
        = (FirmataStream.new 0 : FirmataStream Int).getNumInputDimensions := by
  refine ⟨rfl, rfl, ?_⟩
  intro h
  have h1 := h [.useAnalogPin 0]
  exact absurd h1 (by decide)

/-- C10 (amended): for `AudioStream`, `SerialStream` and `ASCIISerialStream`,
`getNumInputDimensions()` is the same after every sequence of public operations (start,
stop, either `setLabelsForAllDimensions`, normalizer registration, callback
registration), from any state. For `FirmataStream` it is the number of registered pins:
each of those operations leaves it unchanged and each `useAnalogPin` raises it by one,
so after a sequence of operations it has grown by the number of `useAnalogPin` calls. -/
theorem dimensions_fixed_except_pins (α : Type) :
    (∀ (numOut : AudioStream α → Nat) (s : AudioStream α) (ops : List (StreamOp α)),
        (ops.foldl (AudioStream.applyOp numOut) s).getNumInputDimensions
          = s.getNumInputDimensions)
    ∧ (∀ (numOut : SerialStream α → Nat) (s : SerialStream α) (ops : List (StreamOp α)),
        (ops.foldl (SerialStream.applyOp numOut) s).getNumInputDimensions
          = s.getNumInputDimensions)
    ∧ (∀ (numOut : ASCIISerialStream α → Nat) (s : ASCIISerialStream α)
        (ops : List (StreamOp α)),
        (ops.foldl (ASCIISerialStream.applyOp numOut) s).getNumInputDimensions
          = s.getNumInputDimensions)
    ∧ (∀ (numOut : FirmataStream α → Nat) (s : FirmataStream α) (op : StreamOp α),
        (s.applyOp numOut (.common op)).getNumInputDimensions = s.getNumInputDimensions)
    ∧ (∀ (numOut : FirmataStream α → Nat) (s : FirmataStream α) (i : Int),
        (s.applyOp numOut (.useAnalogPin i)).getNumInputDimensions
          = s.getNumInputDimensions + 1)
    ∧ (∀ (numOut : FirmataStream α → Nat) (s : FirmataStream α)
        (ops : List (FirmataOp α)),
        (ops.foldl (FirmataStream.applyOp numOut) s).getNumInputDimensions
          = s.getNumInputDimensions + FirmataOp.pinCalls ops) := by
  refine ⟨fun _ _ _ => rfl, fun _ _ _ => rfl, ?_, ?_, ?_, ?_⟩
  · intro numOut s ops
    exact ASCIISerialStream.foldl_numDimensions numOut ops s
  · intro numOut s op
    unfold FirmataStream.getNumInputDimensions
    rw [FirmataStream.applyOp_common_pins]
  · intro numOut s i
    simp [FirmataStream.getNumInputDimensions, FirmataStream.applyOp,
      FirmataStream.useAnalogPin]
  · intro numOut s ops
    exact FirmataStream.foldl_pins_length numOut ops s

end Dimensions

section SerialReadSerial

variable {α : Type}

theorem writeAt_length (buf : List Nat) (offset : Nat) (bytes : List Nat)
    (h : offset + bytes.length ≤ buf.length) :
    (writeAt buf offset bytes).length = buf.length := by
  simp only [writeAt, List.length_append, List.length_take, List.length_drop]
  omega

theorem writeAt_take (buf : List Nat) (offset : Nat) (bytes : List Nat)
    (h : offset + bytes.length ≤ buf.length) :
    (writeAt buf offset bytes).take (offset + bytes.length) = buf.take offset ++ bytes := by
  have hlen : (buf.take offset ++ bytes).length = offset + bytes.length := by
    simp only [List.length_append, List.length_take]
    omega
  unfold writeAt
  rw [← hlen, List.take_left]

theorem writeAt_nil (buf : List Nat) (offset : Nat) : writeAt buf offset [] = buf := by
  simp [writeAt]

/-- What the inner loop of `readSerial` leaves behind, for any run of driver answers on
which it ends: it used a prefix of the answers; if no error was logged, every byte of
the block was collected and the array holds, after what was there before, the bytes
stored in order; if an error was logged, bytes are still missing. -/
theorem readBlock_result (bytesRequired : Nat) :
    ∀ (polls : List SerialPoll) (bytes : List Nat) (bytesRemaining : Nat)
      (block : BlockResult),
      SerialStream.readBlock bytesRequired bytes bytesRemaining polls = some block →
      bytesRemaining ≤ bytesRequired → bytes.length = bytesRequired →
      ∃ used : List SerialPoll,
        polls = used ++ block.unused
        ∧ block.bytes.length = bytesRequired
        ∧ block.bytes.take (bytesRequired - bytesRemaining)
            = bytes.take (bytesRequired - bytesRemaining)
        ∧ (block.log = [] →
            block.bytesRemaining = 0
            ∧ (bytesStored used).length = bytesRemaining
            ∧ block.bytes
                = bytes.take (bytesRequired - bytesRemaining) ++ bytesStored used)
        ∧ (block.log ≠ [] →
            0 < block.bytesRemaining ∧ block.log = [serialErrorMsg]
            ∧ (bytesStored used).length + block.bytesRemaining ≤ bytesRemaining) := by
  intro polls
  induction polls with
  | nil =>
    intro bytes rem block h hrem hlen
    by_cases hpos : rem > 0
    · simp [SerialStream.readBlock, hpos] at h
    · have h0 : rem = 0 := by omega
      subst h0
      simp only [SerialStream.readBlock, gt_iff_lt, Nat.lt_irrefl, if_false,
        Option.some.injEq] at h
      subst h
      refine ⟨[], rfl, hlen, rfl, ?_, ?_⟩
      · intro _
        refine ⟨rfl, rfl, ?_⟩
        simp [bytesStored, ← hlen]
      · intro hne
        exact absurd rfl hne
  | cons p polls ih =>
    intro bytes rem block h hrem hlen
    by_cases hpos : rem > 0
    · by_cases hav : p.available > 0
      · by_cases hover : p.readBytes.stored.length > rem
        · simp [SerialStream.readBlock, hpos, hav, hover] at h
        · have hfit : (bytesRequired - rem) + p.readBytes.stored.length ≤ bytes.length := by
            omega
          have hwlen := writeAt_length bytes (bytesRequired - rem) p.readBytes.stored hfit
          simp only [SerialStream.readBlock, hpos, hav, hover, if_true, if_false] at h
          cases hrb : p.readBytes with
          | error =>
            simp only [hrb, ReadBytes.result, ReadBytes.stored, if_true,
              Option.some.injEq] at h
            subst h
            refine ⟨[p], rfl, ?_, ?_, ?_, ?_⟩
            · simp [writeAt_nil, hlen]
            · simp [writeAt_nil]
            · intro hl
              simp at hl
            · intro _
              refine ⟨hpos, rfl, ?_⟩
              simp [bytesStored, hav, hrb, ReadBytes.stored]
          | noData =>
            have hne : ¬ (OF_SERIAL_NO_DATA = OF_SERIAL_ERROR) := by decide
            simp only [hrb, ReadBytes.result, ReadBytes.stored, hne, if_true, if_false,
              writeAt_nil] at h
            obtain ⟨used, hu, hbl, htk, hok, herr⟩ := ih bytes rem block h hrem hlen
            refine ⟨p :: used, by rw [hu]; rfl, hbl, htk, ?_, ?_⟩
            · intro hl
              have := hok hl
              simpa [bytesStored, hav, hrb, ReadBytes.stored] using this
            · intro hl
              have := herr hl
              simpa [bytesStored, hav, hrb, ReadBytes.stored] using this
          | count bs =>
            have hbs : bs.length ≤ rem := by
              have : p.readBytes.stored = bs := by rw [hrb]; rfl
              rw [this] at hover
              omega
            have hfit2 : (bytesRequired - rem) + bs.length ≤ bytes.length := by omega
            have hne1 : ¬ ((bs.length : Int) = OF_SERIAL_ERROR) := by
              unfold OF_SERIAL_ERROR; omega
            have hne2 : ¬ ((bs.length : Int) = OF_SERIAL_NO_DATA) := by
              unfold OF_SERIAL_NO_DATA; omega
            simp only [hrb, ReadBytes.result, ReadBytes.stored, hne1, hne2, if_false,
              Int.toNat_ofNat] at h
            have hwl : (writeAt bytes (bytesRequired - rem) bs).length = bytesRequired := by
              rw [writeAt_length bytes (bytesRequired - rem) bs hfit2, hlen]
            obtain ⟨used, hu, hbl, htk, hok, herr⟩ :=
              ih (writeAt bytes (bytesRequired - rem) bs) (rem - bs.length) block h
                (by omega) hwl
            have hoff : bytesRequired - (rem - bs.length)
                = (bytesRequired - rem) + bs.length := by omega
            have hwt := writeAt_take bytes (bytesRequired - rem) bs hfit2
            rw [hoff, hwt] at htk
            refine ⟨p :: used, by rw [hu]; rfl, hbl, ?_, ?_, ?_⟩
            · have h1 := congrArg (List.take (bytesRequired - rem)) htk
              rw [List.take_take, Nat.min_eq_left (Nat.le_add_right _ _)] at h1
              rw [h1, List.take_append_of_le_length (by simp; omega), List.take_take,
                Nat.min_self]
            · intro hl
              obtain ⟨h0, hl2, hb⟩ := hok hl
              have hst : bytesStored (p :: used) = bs ++ bytesStored used := by
                simp [bytesStored, hav, hrb, ReadBytes.stored]
              refine ⟨h0, ?_, ?_⟩
              · rw [hst, List.length_append, hl2]
                omega
              · rw [hb, hoff, hwt, hst, List.append_assoc]
            · intro hl
              obtain ⟨h0, hl2, hb⟩ := herr hl
              have hst : bytesStored (p :: used) = bs ++ bytesStored used := by
                simp [bytesStored, hav, hrb, ReadBytes.stored]
              refine ⟨h0, hl2, ?_⟩
              rw [hst, List.length_append]
              omega
      · simp only [SerialStream.readBlock, hpos, hav, if_true, if_false] at h
        obtain ⟨used, hu, hbl, htk, hok, herr⟩ := ih bytes rem block h hrem hlen
        refine ⟨p :: used, by rw [hu]; rfl, hbl, htk, ?_, ?_⟩
        · intro hl
          have := hok hl
          simpa [bytesStored, hav] using this
        · intro hl
          have := herr hl
          simpa [bytesStored, hav] using this
    · have h0 : rem = 0 := by omega
      subst h0
      simp only [SerialStream.readBlock, gt_iff_lt, Nat.lt_irrefl, if_false,
        Option.some.injEq] at h
      subst h
      refine ⟨[], rfl, hlen, rfl, ?_, ?_⟩
      · intro _
        refine ⟨rfl, rfl, ?_⟩
        simp [bytesStored, ← hlen]
      · intro hne
        exact absurd rfl hne

end SerialReadSerial

section SerialReadSerialFrames

variable {α : Type}

theorem allReads_range_map {β γ : Type} (g : β → γ) (l : List β) :
    allReads ((List.range l.length).map fun (i : Nat) => (l[i]?).map g)
      = some (l.map g) := by
  induction l with
  | nil => rfl
  | cons a l ih =>
    rw [List.length_cons, List.range_succ_eq_map, List.map_cons, List.map_map]
    have hfun : ((fun (i : Nat) => ((a :: l)[i]?).map g) ∘ Nat.succ)
        = fun (i : Nat) => (l[i]?).map g := by
      funext i
      simp
    rw [hfun]
    simp [allReads, ih]

/-- The frame one pass of `readSerial` hands to a registered callback, whenever the
inner loop ends: there is exactly one frame and it has `kBufferSize_` rows. If no error
was logged the block is complete and row `i` is the `i`-th byte stored by the driver in
this pass, put through `byteSample`. If an error was logged the frame is handed over
although fewer than `kBufferSize_` bytes were stored. -/
theorem readSerialIteration_frame [NatCast α] (kBufferSize_ : Nat)
    (indeterminate : Nat → Nat) (s : SerialStream α) (polls : List SerialPoll)
    (pass : SerialStream.SerialPass α)
    (h : s.readSerialIteration kBufferSize_ indeterminate polls = some pass)
    (hcb : s.data_ready_callback_ = true) :
    ∃ (used : List SerialPoll) (frame : MatrixDouble α),
      polls = used ++ pass.unused
      ∧ pass.frames = [frame]
      ∧ frame.length = kBufferSize_
      ∧ (pass.log = [] →
          pass.bytesRemaining = 0
          ∧ (bytesStored used).length = kBufferSize_
          ∧ frame = (bytesStored used).map fun b => [s.byteSample b])
      ∧ (pass.log ≠ [] →
          0 < pass.bytesRemaining ∧ (bytesStored used).length < kBufferSize_) := by
  unfold SerialStream.readSerialIteration at h
  cases hb : SerialStream.readBlock kBufferSize_
      ((List.range kBufferSize_).map indeterminate) kBufferSize_ polls with
  | none => simp [hb] at h
  | some block =>
    obtain ⟨used, hu, hbl, _, hok, herr⟩ :=
      readBlock_result kBufferSize_ polls _ kBufferSize_ block hb (Nat.le_refl _)
        (by simp)
    have hrows := allReads_range_map (fun (b : Nat) => [s.byteSample b]) block.bytes
    rw [hbl] at hrows
    simp only [hb, hrows, hcb, if_true, Option.some.injEq] at h
    subst h
    refine ⟨used, block.bytes.map fun (b : Nat) => [s.byteSample b], hu, rfl, ?_, ?_, ?_⟩
    · simp [hbl]
    · intro hl
      obtain ⟨h0, hlen, hbytes⟩ := hok hl
      refine ⟨h0, hlen, ?_⟩
      rw [hbytes]
      simp
    · intro hl
      obtain ⟨h0, _, hle⟩ := herr hl
      exact ⟨h0, by omega⟩

/-- C11 (evaluation at the failing input): with `kBufferSize_ = 4`, the driver stores
the two bytes 1 and 2 and then `readBytes` returns `OF_SERIAL_ERROR`. The inner loop is
left with two bytes still missing, and the pass nevertheless hands the callback a frame
of four rows: rows 0 and 1 are the bytes read, rows 2 and 3 are whatever `bytes[]` held
before (7 in one run, 9 in the other), not bytes read from the device. Without the
error the frame holds the four bytes stored, in order. -/
theorem readSerial_error_emits_partial_block :
    bytesStored [⟨2, .count [1, 2]⟩, ⟨1, .error⟩] = [1, 2]
    ∧ (SerialStream.readSerialIteration 4 (fun _ => 7)
          ({ SerialStream.new 0 115200 with data_ready_callback_ := true }
            : SerialStream Int)
          [⟨2, .count [1, 2]⟩, ⟨1, .error⟩]).map
        (fun pass => (pass.frames, pass.log, pass.bytesRemaining))
      = some ([[[1], [2], [7], [7]]], [serialErrorMsg], 2)
    ∧ (SerialStream.readSerialIteration 4 (fun _ => 9)
          ({ SerialStream.new 0 115200 with data_ready_callback_ := true }
            : SerialStream Int)
          [⟨2, .count [1, 2]⟩, ⟨1, .error⟩]).map
        (fun pass => (pass.frames, pass.log, pass.bytesRemaining))
      = some ([[[1], [2], [9], [9]]], [serialErrorMsg], 2)
    ∧ (SerialStream.readSerialIteration 4 (fun _ => 7)
          ({ SerialStream.new 0 115200 with data_ready_callback_ := true }
            : SerialStream Int)
          [⟨0, .noData⟩, ⟨2, .count [1, 2]⟩, ⟨1, .noData⟩, ⟨5, .count [3, 4]⟩]).map
        (fun pass => (pass.frames, pass.log, pass.bytesRemaining))
      = some ([[[1], [2], [3], [4]]], [], 0) := by
  refine ⟨by decide, by decide, by decide, by decide⟩

end SerialReadSerialFrames

section AudioInInterleaved

/-- The channel count passed to `audioIn` has no effect on the frame: it is overwritten
before it is used. -/
theorem audioIn_ignores_nChannel {α : Type} (s : AudioStream α) (input : List α)
    (buffer_size nChannel : Int) :
    s.audioIn input buffer_size nChannel = s.audioIn input buffer_size 1 := rfl

/-- C12 (evaluation at the failing input): a buffer of 4 sample frames over 2
interleaved channels, channel 0 holding 10, 11, 12, 13 and channel 1 holding 20, 21,
22, 23. With downsample factor 1 the frame is the first four array elements, so it
holds the channel-1 samples 20 and 21, read at the odd indices 1 and 3, and misses 12
and 13. With downsample factor 2 the frame is 10, 11, which is channel 0 unthinned and
cut short, where every second channel-0 sample would be 10, 12. -/
theorem audioIn_interleaved_mixes_channels :
    AudioStream.audioIn
        ({ AudioStream.new 1 with data_ready_callback_ := true } : AudioStream Nat)
        [10, 20, 11, 21, 12, 22, 13, 23] 4 2
      = some [[[10], [20], [11], [21]]]
    ∧ [10, 20, 11, 21, 12, 22, 13, 23][1]? = some 20 ∧ 1 % 2 ≠ 0
    ∧ AudioStream.audioIn
        ({ AudioStream.new 2 with data_ready_callback_ := true } : AudioStream Nat)
        [10, 20, 11, 21, 12, 22, 13, 23] 4 2
      = some [[[10], [11]]]
    ∧ [10, 20, 11, 21, 12, 22, 13, 23][2 * 2]? = some 12 := by
  refine ⟨by decide, by decide, by decide, by decide, by decide⟩

end AudioInInterleaved
end Sensors
